import Mathlib

/-!
Verification of the fmctl Fabric Manager control client (Go sources in
cmd/fmctl/main.go and the fmsdk cgo binding package).

The development shallowly embeds the ABI/marshaling layer of the binding:
bytes are naturals below 256, C character buffers are byte lists, machine
integers are naturals (with explicit reduction modulo 2^32 where the source
casts to unsigned int), Go strings are byte lists, and the native library
(libnvfm) is an explicit oracle parameter.  A Go index-out-of-range abort is
modelled by the GoResult.panic outcome; Go os.Exit, which terminates the
process without running deferred calls, is modelled by an explicit trace
event after which no deferred event is appended.
-/

/-! ## Native ABI constants (C header block in the fmsdk package) -/

def FM_MAX_FABRIC_PARTITIONS : Nat := 64

def FM_MAX_NUM_GPUS : Nat := 16

def FM_UUID_BUFFER_SIZE : Nat := 80

def FM_DEVICE_PCI_BUS_ID_BUFFER_SIZE : Nat := 32

def FM_MAX_STR_LENGTH : Nat := 256

/-! fmReturn_t enumeration values, as in the C enum and the Go constants
mirroring it.  The Go type FMReturn is an int; we model it as Int. -/

def FM_ST_SUCCESS : Int := 0

def FM_ST_BADPARAM : Int := -1

def FM_ST_GENERIC_ERROR : Int := -2

def FM_ST_NOT_SUPPORTED : Int := -3

def FM_ST_UNINITIALIZED : Int := -4

def FM_ST_TIMEOUT : Int := -5

def FM_ST_VERSION_MISMATCH : Int := -6

def FM_ST_IN_USE : Int := -7

def FM_ST_NOT_CONFIGURED : Int := -8

def FM_ST_CONNECTION_NOT_VALID : Int := -9

def FM_ST_NVLINK_ERROR : Int := -10

/-- The eleven members of the fmReturn_t enumeration, as abstract codes. -/
inductive FMReturnCode where
  | success
  | badparam
  | genericError
  | notSupported
  | uninitialized
  | timeout
  | versionMismatch
  | inUse
  | notConfigured
  | connectionNotValid
  | nvlinkError
deriving DecidableEq

/-- The integer value each fmReturn_t member carries on the wire, per the
C enum declaration in the fmsdk package. -/
def fmReturnValue : FMReturnCode → Int
  | .success => FM_ST_SUCCESS
  | .badparam => FM_ST_BADPARAM
  | .genericError => FM_ST_GENERIC_ERROR
  | .notSupported => FM_ST_NOT_SUPPORTED
  | .uninitialized => FM_ST_UNINITIALIZED
  | .timeout => FM_ST_TIMEOUT
  | .versionMismatch => FM_ST_VERSION_MISMATCH
  | .inUse => FM_ST_IN_USE
  | .notConfigured => FM_ST_NOT_CONFIGURED
  | .connectionNotValid => FM_ST_CONNECTION_NOT_VALID
  | .nvlinkError => FM_ST_NVLINK_ERROR

/-- Embedding of the Go method FMReturn.String: a switch over the named
return codes with a default case for unknown values. -/
def FMReturnString (r : Int) : String :=
  if r = FM_ST_SUCCESS then "Success"
  else if r = FM_ST_BADPARAM then "Bad parameter"
  else if r = FM_ST_GENERIC_ERROR then "Generic error"
  else if r = FM_ST_NOT_SUPPORTED then "Not supported"
  else if r = FM_ST_UNINITIALIZED then "Uninitialized"
  else if r = FM_ST_TIMEOUT then "Timeout"
  else if r = FM_ST_VERSION_MISMATCH then "Version mismatch"
  else if r = FM_ST_IN_USE then "In use"
  else if r = FM_ST_NOT_CONFIGURED then "Not configured"
  else if r = FM_ST_CONNECTION_NOT_VALID then "Connection not valid"
  else if r = FM_ST_NVLINK_ERROR then "NVLink error"
  else "Unknown error (" ++ toString r ++ ")"

/-! ## Version tag codec -/

/-- Embedding of the C macro
MAKE_FM_PARAM_VERSION(typeName,ver) = (unsigned int)(sizeof(typeName) | ((ver)<<24)).
The cast to unsigned int is the reduction modulo 2^32. -/
def MAKE_FM_PARAM_VERSION (size ver : Nat) : Nat :=
  (size ||| (ver <<< 24)) % 2 ^ 32

/-- Byte size of the C structure fmConnectParams_v1:
unsigned int version (4) + char addressInfo[256] + unsigned int timeoutMs (4)
+ unsigned int addressIsUnixSocket (4); all members have alignment at most 4,
so there is no padding. -/
def sizeof_fmConnectParams_v1 : Nat := 268

/-- Byte size of fmFabricPartitionGpuInfo_t:
4 + 80 (uuid) + 32 (pciBusId) + 4 + 4 + 4 = 128, no padding. -/
def sizeof_fmFabricPartitionGpuInfo_t : Nat := 128

/-- Byte size of fmFabricPartitionInfo_t: 4 + 4 + 4 + 16 * 128 = 2060. -/
def sizeof_fmFabricPartitionInfo_t : Nat := 2060

/-- Byte size of fmFabricPartitionList_v2: 4 + 4 + 4 + 64 * 2060 = 131852. -/
def sizeof_fmFabricPartitionList_v2 : Nat := 131852

/-- The C constant fmConnectParams_version =
MAKE_FM_PARAM_VERSION(fmConnectParams_v1, 1). -/
def fmConnectParams_version : Nat :=
  MAKE_FM_PARAM_VERSION sizeof_fmConnectParams_v1 1

/-- The C constant fmFabricPartitionList_version =
MAKE_FM_PARAM_VERSION(fmFabricPartitionList_v2, 1). -/
def fmFabricPartitionList_version : Nat :=
  MAKE_FM_PARAM_VERSION sizeof_fmFabricPartitionList_v2 1

/-- Modelled from the spec: the repository has no decoder for version tags
(only the encoding macro exists in the source); the spec describes the tag as
a packed integer holding the structure byte size in the low 24 bits and the
protocol version number in the high 8 bits, so the decoder recovers the pair
(low 24 bits, high 8 bits). -/
def decode_version (t : Nat) : Nat × Nat :=
  (t % 2 ^ 24, t / 2 ^ 24)

/-! ## Connect request marshaling

The Go function FMConnect builds a C fmConnectParams_v1 from the safe
FMConnectParams struct: it sets the version field from the SDK macro constant,
copies the timeout and socket flag, and copies exactly 256 bytes starting at
the C string allocated for the address into the 256-byte addressInfo array
(copy of two 256-element views).  Bytes of that source window beyond the
terminating null of the C string are whatever follows the allocation on the
heap; they appear here as the junk parameter.  The window is always 256 bytes,
so the model pads with zeros only when address, terminator and junk together
fall short of 256 - that padding is itself arbitrary heap content and no
theorem depends on it. -/

/-- Safe Go-side connect parameters (package fmsdk), strings as byte lists. -/
structure FMConnectParams where
  Version : Nat
  AddressInfo : List Nat
  TimeoutMs : Nat
  AddressIsUnixSocket : Bool
deriving DecidableEq

/-- The native fmConnectParams_v1 structure as filled in by FMConnect. -/
structure fmConnectParams_v1 where
  version : Nat
  addressInfo : List Nat
  timeoutMs : Nat
  addressIsUnixSocket : Nat
deriving DecidableEq

/-- The 256-byte addressInfo array after the copy in FMConnect: the first 256
bytes of (address bytes, the terminating null of C.CString, following heap
bytes). -/
def encodeAddressBuffer (addr junk : List Nat) : List Nat :=
  ((addr ++ [0] ++ junk) ++ List.replicate FM_MAX_STR_LENGTH 0).take
    FM_MAX_STR_LENGTH

/-- The native request FMConnect assembles before calling C.fmConnect.  The
caller-supplied Version field of FMConnectParams is never read; the version
field is always the macro constant fmConnectParams_version. -/
def buildConnectRequest (junk : List Nat) (p : FMConnectParams) :
    fmConnectParams_v1 :=
  { version := fmConnectParams_version
  , addressInfo := encodeAddressBuffer p.AddressInfo junk
  , timeoutMs := p.TimeoutMs
  , addressIsUnixSocket := if p.AddressIsUnixSocket then 1 else 0 }

/-- Embedding of the Go function FMConnect.  The native library is the oracle
parameter: given the request it returns the fmReturn_t value and, when it
writes the out-parameter, the handle value (none models leaving the
out-parameter untouched).  The Go variable holding the out-parameter is
zero-initialized, so an untouched out-parameter yields the null handle 0.
The returned list is the trace of native connect calls issued: FMConnect
performs no local validation and always issues exactly one call. -/
def FMConnect (native : fmConnectParams_v1 → Int × Option Nat)
    (junk : List Nat) (p : FMConnectParams) :
    (Nat × Int) × List fmConnectParams_v1 :=
  let req := buildConnectRequest junk p
  let r := native req
  ((r.2.getD 0, r.1), [req])

/-! ## Partition list structures and decoding

The native fmFabricPartitionList_v2 holds fixed-capacity arrays: 64 partition
entries, each with 16 GPU entries.  Well-formed native memory gives the lists
exactly those lengths; the decode loops in FMGetSupportedFabricPartitions
index the arrays by the declared counts with no clamp, so a declared count
beyond the capacity is a Go index-out-of-range abort, modelled by
GoResult.panic. -/

/-- Native fmFabricPartitionGpuInfo_t: uuid is an 80-byte array, pciBusId a
32-byte array; the remaining members are unsigned ints. -/
structure fmFabricPartitionGpuInfo_t where
  physicalId : Nat
  uuid : List Nat
  pciBusId : List Nat
  numNvLinksAvailable : Nat
  maxNumNvLinks : Nat
  nvlinkLineRateMBps : Nat
deriving DecidableEq

/-- Native fmFabricPartitionInfo_t with its 16-capacity gpuInfo array. -/
structure fmFabricPartitionInfo_t where
  partitionId : Nat
  isActive : Nat
  numGpus : Nat
  gpuInfo : List fmFabricPartitionGpuInfo_t
deriving DecidableEq

/-- Native fmFabricPartitionList_v2 with its 64-capacity partitionInfo
array. -/
structure fmFabricPartitionList_v2 where
  version : Nat
  numPartitions : Nat
  maxNumPartitions : Nat
  partitionInfo : List fmFabricPartitionInfo_t
deriving DecidableEq

/-- Safe Go-side GPU info (package fmsdk), strings as byte lists. -/
structure FMFabricPartitionGpuInfo where
  PhysicalID : Nat
  UUID : List Nat
  PCIBusID : List Nat
  NumNvLinksAvailable : Nat
  MaxNumNvLinks : Nat
  NvlinkLineRateMBps : Nat
deriving DecidableEq

/-- Safe Go-side partition info (package fmsdk). -/
structure FMPartitionInfo where
  PartitionID : Nat
  IsActive : Bool
  NumGpus : Nat
  GPUInfo : List FMFabricPartitionGpuInfo
deriving DecidableEq

/-- Outcome of a Go computation that can abort with an index-out-of-range
runtime error: ok carries the value, panic is the abort (no value escapes). -/
inductive GoResult (α : Type) where
  | ok (val : α)
  | panic
deriving DecidableEq

/-- The little-endian bytes of an unsigned int field, as laid out in the
native structure after the character arrays. -/
def leBytes (x : Nat) : List Nat :=
  [x % 256, x / 256 % 256, x / 65536 % 256, x / 16777216 % 256]

/-- The bytes of the three unsigned int members that follow pciBusId inside
fmFabricPartitionGpuInfo_t (the struct has no padding, so they are adjacent
to the character arrays). -/
def gpuTrailingBytes (g : fmFabricPartitionGpuInfo_t) : List Nat :=
  leBytes g.numNvLinksAvailable ++ leBytes g.maxNumNvLinks ++
    leBytes g.nvlinkLineRateMBps

/-- Embedding of C.GoString: an unbounded scan for the terminating null
starting at the given byte.  It is not limited to the buffer it starts in;
the caller passes the memory from the start of the field onward. -/
def goString (mem : List Nat) : List Nat :=
  mem.takeWhile (fun b => b != 0)

/-- Conversion of one native GPU entry to the safe type.  The uuid and
pciBusId strings are read with C.GoString from the first byte of each array;
because the scan is unbounded, the memory passed to it continues past the
array into the adjacent members of the same entry (contiguous C layout).
Bytes past the end of the entry are not modelled; no theorem here depends
on a scan running past an entire entry. -/
def decodeGpu (g : fmFabricPartitionGpuInfo_t) : FMFabricPartitionGpuInfo :=
  { PhysicalID := g.physicalId
  , UUID := goString (g.uuid ++ g.pciBusId ++ gpuTrailingBytes g)
  , PCIBusID := goString (g.pciBusId ++ gpuTrailingBytes g)
  , NumNvLinksAvailable := g.numNvLinksAvailable
  , MaxNumNvLinks := g.maxNumNvLinks
  , NvlinkLineRateMBps := g.nvlinkLineRateMBps }

/-- The inner Go loop over gpuInfo indices 0 .. numGpus-1: reading index j of
an array of which only the listed elements exist aborts when the declared
count outruns the capacity. -/
def decodeGpuLoop (arr : List fmFabricPartitionGpuInfo_t) :
    Nat → GoResult (List FMFabricPartitionGpuInfo) :=
  fun m =>
    match m, arr with
    | 0, _ => .ok []
    | _ + 1, [] => .panic
    | m + 1, g :: gs =>
      match decodeGpuLoop gs m with
      | .ok rest => .ok (decodeGpu g :: rest)
      | .panic => .panic

/-- Conversion of one native partition entry: the gpuInfo array is read at
exactly numGpus indices. -/
def decodePartitionInfo (p : fmFabricPartitionInfo_t) :
    GoResult FMPartitionInfo :=
  match decodeGpuLoop p.gpuInfo p.numGpus with
  | .ok gs =>
    .ok { PartitionID := p.partitionId
        , IsActive := p.isActive != 0
        , NumGpus := p.numGpus
        , GPUInfo := gs }
  | .panic => .panic

/-- The outer Go loop over partitionInfo indices 0 .. numPartitions-1. -/
def decodeLoop (arr : List fmFabricPartitionInfo_t) :
    Nat → GoResult (List FMPartitionInfo) :=
  fun n =>
    match n, arr with
    | 0, _ => .ok []
    | _ + 1, [] => .panic
    | n + 1, p :: ps =>
      match decodePartitionInfo p with
      | .ok fi =>
        match decodeLoop ps n with
        | .ok rest => .ok (fi :: rest)
        | .panic => .panic
      | .panic => .panic

/-- Decoding of the whole response structure: exactly numPartitions entries
are read, with no clamp against the 64-entry capacity. -/
def decodePartitionList (pl : fmFabricPartitionList_v2) :
    GoResult (List FMPartitionInfo) :=
  decodeLoop pl.partitionInfo pl.numPartitions

/-- Embedding of the Go function FMGetSupportedFabricPartitions.  The native
library is the oracle: given the handle and the version tag the wrapper wrote
into the request structure, it returns the fmReturn_t value and the structure
contents after the call.  On a non-success return the Go code returns
(nil, ret) without decoding; on success it decodes, which can abort. -/
def FMGetSupportedFabricPartitions
    (native : Nat → Nat → Int × fmFabricPartitionList_v2) (handle : Nat) :
    GoResult (Option (List FMPartitionInfo) × Int) :=
  let r := native handle fmFabricPartitionList_version
  if r.1 != 0 then .ok (none, r.1)
  else
    match decodePartitionList r.2 with
    | .ok l => .ok (some l, r.1)
    | .panic => .panic

/-! ## Activate / deactivate -/

/-- Trace entries for the partition lifecycle wrappers. -/
inductive NativeCall where
  | activateCall (handle : Nat) (partitionId : Nat)
  | deactivateCall (handle : Nat) (partitionId : Nat)
deriving DecidableEq

/-- Embedding of the Go function FMActivateFabricPartition: one native call,
whose return value is handed back unchanged; the list is the trace of native
calls issued. -/
def FMActivateFabricPartition (native : Nat → Nat → Int)
    (fmHandle : Nat) (partitionID : Nat) : Int × List NativeCall :=
  (native fmHandle partitionID, [NativeCall.activateCall fmHandle partitionID])

/-- Embedding of the Go function FMDeactivateFabricPartition. -/
def FMDeactivateFabricPartition (native : Nat → Nat → Int)
    (fmHandle : Nat) (partitionID : Nat) : Int × List NativeCall :=
  (native fmHandle partitionID,
    [NativeCall.deactivateCall fmHandle partitionID])

/-! ## The main command dispatch (cmd/fmctl/main.go)

To settle the handle-release discipline we model the control flow of main and
the cmd functions as a trace of events.  Go semantics encoded here: a
deferred call runs when the surrounding function returns; os.Exit terminates
the process immediately and deferred calls do NOT run.  Every error path of
the cmd functions and of the dispatch ends in os.Exit(1).  The outcomes of
the external collaborators (the daemon via the fmsdk wrappers, the JSON
marshaller, strconv argument parsing) are oracle inputs. -/

/-- Events observable in a run of main. -/
inductive MainEvent where
  | nativeListCall
  | nativeActivateCall (pid : Nat)
  | nativeDeactivateCall (pid : Nat)
  | disconnectCall
  | libShutdownCall
  | osExit (code : Nat)
deriving DecidableEq

/-- Oracle for one run: return codes the daemon produces, the partition ids
the list response decodes to (for the status lookup), the output-mode flag
and whether json.MarshalIndent succeeds. -/
structure DaemonOracle where
  connectRet : Int
  listRet : Int
  partitionIds : List Nat
  activateRet : Int
  deactivateRet : Int
  jsonOut : Bool
  marshalOk : Bool
deriving DecidableEq

/-- Outcome of reading the partition-id command argument: absent
(flag.NArg() < 2), rejected by strconv.ParseUint, or parsed. -/
inductive CmdArg where
  | missing
  | rejected
  | parsed (pid : Nat)
deriving DecidableEq

/-- The command selected by the first positional argument.  The info command
returns before any connection is made and is outside the owning scope
modelled here. -/
inductive Command where
  | list
  | status (arg : CmdArg)
  | activate (arg : CmdArg)
  | deactivate (arg : CmdArg)
  | unknown
deriving DecidableEq

/-- Body of cmdList: the list call, then os.Exit(1) on a non-success return
or a JSON marshal failure; the Bool is true when the function returns
normally. -/
def cmdListExec (o : DaemonOracle) : List MainEvent × Bool :=
  if o.listRet != 0 then ([.nativeListCall, .osExit 1], false)
  else if o.jsonOut && !o.marshalOk then ([.nativeListCall, .osExit 1], false)
  else ([.nativeListCall], true)

/-- Body of cmdStatus: list call, os.Exit(1) on list failure, on a partition
id not present in the response, or on a JSON marshal failure. -/
def cmdStatusExec (o : DaemonOracle) (pid : Nat) : List MainEvent × Bool :=
  if o.listRet != 0 then ([.nativeListCall, .osExit 1], false)
  else if !(o.partitionIds.contains pid) then
    ([.nativeListCall, .osExit 1], false)
  else if o.jsonOut && !o.marshalOk then ([.nativeListCall, .osExit 1], false)
  else ([.nativeListCall], true)

/-- Body of cmdActivate: one activate call, os.Exit(1) on failure; the JSON
marshal error on the success path is discarded by the source. -/
def cmdActivateExec (o : DaemonOracle) (pid : Nat) : List MainEvent × Bool :=
  if o.activateRet != 0 then ([.nativeActivateCall pid, .osExit 1], false)
  else ([.nativeActivateCall pid], true)

/-- Body of cmdDeactivate, symmetric to cmdActivate. -/
def cmdDeactivateExec (o : DaemonOracle) (pid : Nat) : List MainEvent × Bool :=
  if o.deactivateRet != 0 then ([.nativeDeactivateCall pid, .osExit 1], false)
  else ([.nativeDeactivateCall pid], true)

/-- The dispatch on the command, including the argument-validation exits that
happen inside main after the connection is established. -/
def dispatchExec (o : DaemonOracle) (cmd : Command) : List MainEvent × Bool :=
  match cmd with
  | .list => cmdListExec o
  | .status .missing => ([.osExit 1], false)
  | .status .rejected => ([.osExit 1], false)
  | .status (.parsed pid) => cmdStatusExec o pid
  | .activate .missing => ([.osExit 1], false)
  | .activate .rejected => ([.osExit 1], false)
  | .activate (.parsed pid) => cmdActivateExec o pid
  | .deactivate .missing => ([.osExit 1], false)
  | .deactivate .rejected => ([.osExit 1], false)
  | .deactivate (.parsed pid) => cmdDeactivateExec o pid
  | .unknown => ([.osExit 1], false)

/-- The run of main from the connect call on.  On connect failure main calls
os.Exit(1) (the deferred FMLibShutdown does not run, and no disconnect was
ever registered).  On connect success, defer FMDisconnect(handle) is
registered; if the dispatched body returns normally the deferred calls run in
LIFO order (disconnect, then library shutdown); if the body exits the process
they do not run. -/
def mainExec (o : DaemonOracle) (cmd : Command) : List MainEvent :=
  if o.connectRet != 0 then [MainEvent.osExit 1]
  else
    let body := dispatchExec o cmd
    if body.2 then body.1 ++ [MainEvent.disconnectCall, MainEvent.libShutdownCall]
    else body.1

/-- Number of disconnect invocations in a trace. -/
def disconnectCount (tr : List MainEvent) : Nat :=
  tr.count MainEvent.disconnectCall

/-- True when the trace contains no process-terminating os.Exit, i.e. main
returned normally. -/
def endedNormally (tr : List MainEvent) : Bool :=
  !(tr.any fun e => match e with | MainEvent.osExit _ => true | _ => false)

/-! ## Concrete inputs used by counterexamples and witnesses -/

/-- A 300-byte address (300 times the byte of A): its encoded length with the
terminating null is 301, above the 256-byte buffer capacity. -/
def addrLong : List Nat := List.replicate 300 65

/-- The first 256 bytes of addrLong, itself a maximal-length address. -/
def addrShort : List Nat := List.replicate 256 65

/-- Connect parameters carrying the overlong address. -/
def pLong : FMConnectParams :=
  { Version := 1, AddressInfo := addrLong, TimeoutMs := 5000
  , AddressIsUnixSocket := false }

/-- Connect parameters carrying the truncated address. -/
def pShort : FMConnectParams :=
  { Version := 1, AddressInfo := addrShort, TimeoutMs := 5000
  , AddressIsUnixSocket := false }

/-- Connect parameters for the null-handle witness. -/
def pEmptyAddr : FMConnectParams :=
  { Version := 1, AddressInfo := [], TimeoutMs := 5000
  , AddressIsUnixSocket := true }

/-- A native connect oracle that reports a timeout and leaves the
out-parameter untouched. -/
def nativeTimeoutOracle : fmConnectParams_v1 -> Int × Option Nat :=
  fun _ => (FM_ST_TIMEOUT, none)

/-- A GPU entry whose buffers are entirely zero. -/
def gpuZeroed : fmFabricPartitionGpuInfo_t :=
  { physicalId := 0
  , uuid := List.replicate FM_UUID_BUFFER_SIZE 0
  , pciBusId := List.replicate FM_DEVICE_PCI_BUS_ID_BUFFER_SIZE 0
  , numNvLinksAvailable := 0, maxNumNvLinks := 0, nvlinkLineRateMBps := 0 }

/-- A GPU entry whose 80-byte uuid buffer holds no null at all; the adjacent
pciBusId array starts with a nonzero byte followed by a null. -/
def gpuNoNull : fmFabricPartitionGpuInfo_t :=
  { physicalId := 3
  , uuid := List.replicate FM_UUID_BUFFER_SIZE 65
  , pciBusId := 66 :: List.replicate 31 0
  , numNvLinksAvailable := 0, maxNumNvLinks := 0, nvlinkLineRateMBps := 0 }

/-- A well-formed native partition entry: full 16-capacity gpuInfo array,
declared GPU count zero. -/
def partZeroed : fmFabricPartitionInfo_t :=
  { partitionId := 0, isActive := 0, numGpus := 0
  , gpuInfo := List.replicate FM_MAX_NUM_GPUS gpuZeroed }

/-- A native partition entry whose declared GPU count 17 exceeds the
16-capacity array. -/
def partOverGpus : fmFabricPartitionInfo_t :=
  { partitionId := 0, isActive := 0, numGpus := 17
  , gpuInfo := List.replicate FM_MAX_NUM_GPUS gpuZeroed }

/-- A partition list response declaring 2 partitions within the 64-entry
capacity. -/
def plTwo : fmFabricPartitionList_v2 :=
  { version := fmFabricPartitionList_version
  , numPartitions := 2
  , maxNumPartitions := FM_MAX_FABRIC_PARTITIONS
  , partitionInfo := List.replicate FM_MAX_FABRIC_PARTITIONS partZeroed }

/-- A partition list response declaring 65 partitions, one more than the
64-entry capacity of the native array. -/
def plOver : fmFabricPartitionList_v2 :=
  { version := fmFabricPartitionList_version
  , numPartitions := 65
  , maxNumPartitions := FM_MAX_FABRIC_PARTITIONS
  , partitionInfo := List.replicate FM_MAX_FABRIC_PARTITIONS partZeroed }

/-- A run in which connect succeeds and the list query fails with a timeout
(table output mode, marshaller irrelevant). -/
def oracleListFails : DaemonOracle :=
  { connectRet := 0, listRet := -5, partitionIds := [], activateRet := 0
  , deactivateRet := 0, jsonOut := false, marshalOk := true }

/-- A run in which connect and the list query both succeed. -/
def oracleAllOk : DaemonOracle :=
  { connectRet := 0, listRet := 0, partitionIds := [0, 1], activateRet := 0
  , deactivateRet := 0, jsonOut := false, marshalOk := true }

/-! ## Helper lemmas on bit packing -/

lemma lor_split (n s v : Nat) (hs : s < 2 ^ n) :
    s ||| (v <<< n) = v * 2 ^ n + s := by
  apply Nat.eq_of_testBit_eq
  intro i
  rw [Nat.testBit_lor, Nat.testBit_shiftLeft]
  rcases Nat.lt_or_ge i n with h | h
  · have hge : ¬ (i ≥ n) := by omega
    have h3 : (v * 2 ^ n + s) / 2 ^ i = s / 2 ^ i + v * 2 ^ (n - i) := by
      have h2 : v * 2 ^ n = (v * 2 ^ (n - i)) * 2 ^ i := by
        rw [Nat.mul_assoc, ← pow_add]; congr 2; omega
      rw [h2, Nat.add_comm,
        Nat.add_mul_div_right _ _ (Nat.pos_pow_of_pos i (by norm_num))]
    have h4 : (s / 2 ^ i + v * 2 ^ (n - i)) % 2 = s / 2 ^ i % 2 := by
      obtain ⟨k, hk⟩ : ∃ k, n - i = k + 1 := ⟨n - i - 1, by omega⟩
      rw [hk, pow_succ, ← Nat.mul_assoc]
      exact Nat.add_mul_mod_self_right _ _ _
    simp only [Nat.testBit_to_div_mod, h3, h4]
    have hdec : decide (i ≥ n) = false := by simp [hge]
    rw [hdec]
    simp
  · have hsb : s.testBit i = false :=
      Nat.testBit_eq_false_of_lt
        (lt_of_lt_of_le hs (Nat.pow_le_pow_right (by norm_num) h))
    have h6 : (v * 2 ^ n + s) / 2 ^ i = v / 2 ^ (i - n) := by
      have h7 : (2 : Nat) ^ i = 2 ^ n * 2 ^ (i - n) := by
        rw [← pow_add]; congr 1; omega
      rw [h7, ← Nat.div_div_eq_div_mul]
      have h8 : (v * 2 ^ n + s) / 2 ^ n = v := by
        rw [Nat.add_comm,
          Nat.add_mul_div_right _ _ (Nat.pos_pow_of_pos n (by norm_num)),
          Nat.div_eq_of_lt hs]
        omega
      rw [h8]
    have hdec : decide (i ≥ n) = true := by simp [h]
    rw [hsb, hdec]
    simp only [Nat.testBit_to_div_mod, h6, Bool.false_or, Bool.true_and]

lemma make_version_eq_add (s v : Nat) (hs : s < 2 ^ 24) (hv : v ≤ 255) :
    MAKE_FM_PARAM_VERSION s v = v * 2 ^ 24 + s := by
  unfold MAKE_FM_PARAM_VERSION
  rw [lor_split 24 s v hs]
  apply Nat.mod_eq_of_lt
  have : v * 2 ^ 24 ≤ 255 * 2 ^ 24 := Nat.mul_le_mul_right _ hv
  omega

/-! ## Helper lemmas on the decode loops and the bounded-string scan -/

lemma decodeGpuLoop_ok (arr : List fmFabricPartitionGpuInfo_t) (m : Nat)
    (h : m ≤ arr.length) :
    decodeGpuLoop arr m = GoResult.ok ((arr.take m).map decodeGpu) := by
  induction m generalizing arr with
  | zero => simp [decodeGpuLoop]
  | succ k ih =>
    cases arr with
    | nil => simp at h
    | cons g gs =>
      have hk : k ≤ gs.length := by simpa using h
      simp [decodeGpuLoop, ih gs hk]

lemma decodeGpuLoop_panic (arr : List fmFabricPartitionGpuInfo_t) (m : Nat)
    (h : arr.length < m) : decodeGpuLoop arr m = GoResult.panic := by
  induction arr generalizing m with
  | nil =>
    cases m with
    | zero => simp at h
    | succ k => simp [decodeGpuLoop]
  | cons g gs ih =>
    cases m with
    | zero => simp at h
    | succ k =>
      have hk : gs.length < k := by simpa using h
      simp [decodeGpuLoop, ih k hk]

lemma decodePartitionInfo_ok (p : fmFabricPartitionInfo_t)
    (h : p.numGpus ≤ p.gpuInfo.length) :
    decodePartitionInfo p =
      GoResult.ok
        { PartitionID := p.partitionId
        , IsActive := p.isActive != 0
        , NumGpus := p.numGpus
        , GPUInfo := (p.gpuInfo.take p.numGpus).map decodeGpu } := by
  simp [decodePartitionInfo, decodeGpuLoop_ok p.gpuInfo p.numGpus h]

lemma decodePartitionInfo_panic (p : fmFabricPartitionInfo_t)
    (h : p.gpuInfo.length < p.numGpus) :
    decodePartitionInfo p = GoResult.panic := by
  simp [decodePartitionInfo, decodeGpuLoop_panic p.gpuInfo p.numGpus h]

lemma decodeLoop_ok (arr : List fmFabricPartitionInfo_t) (n : Nat)
    (h : n ≤ arr.length)
    (hg : ∀ p ∈ arr.take n, p.numGpus ≤ p.gpuInfo.length) :
    ∃ l, decodeLoop arr n = GoResult.ok l ∧ l.length = n ∧
      ∀ fi ∈ l, fi.GPUInfo.length = fi.NumGpus := by
  induction n generalizing arr with
  | zero => exact ⟨[], by simp [decodeLoop], rfl, by simp⟩
  | succ k ih =>
    cases arr with
    | nil => simp at h
    | cons p ps =>
      have hk : k ≤ ps.length := by simpa using h
      have hp : p.numGpus ≤ p.gpuInfo.length := by
        apply hg
        simp [List.take_succ_cons]
      have hps : ∀ q ∈ ps.take k, q.numGpus ≤ q.gpuInfo.length := by
        intro q hq
        apply hg
        simp [List.take_succ_cons, hq]
      obtain ⟨l, hl, hlen, hfi⟩ := ih ps hk hps
      refine ⟨{ PartitionID := p.partitionId
              , IsActive := p.isActive != 0
              , NumGpus := p.numGpus
              , GPUInfo := (p.gpuInfo.take p.numGpus).map decodeGpu } :: l,
        ?_, by simp [hlen], ?_⟩
      · simp [decodeLoop, decodePartitionInfo_ok p hp, hl]
      · intro fi hfi2
        rcases List.mem_cons.mp hfi2 with hfi2 | hfi2
        · subst hfi2
          simp [List.length_take, Nat.min_eq_left hp]
        · exact hfi fi hfi2

lemma decodeLoop_panic (arr : List fmFabricPartitionInfo_t) (n : Nat)
    (h : arr.length < n) : decodeLoop arr n = GoResult.panic := by
  induction arr generalizing n with
  | nil =>
    cases n with
    | zero => simp at h
    | succ k => simp [decodeLoop]
  | cons p ps ih =>
    cases n with
    | zero => simp at h
    | succ k =>
      have hk : ps.length < k := by simpa using h
      cases hdp : decodePartitionInfo p with
      | ok fi => simp [decodeLoop, hdp, ih k hk]
      | panic => simp [decodeLoop, hdp]

lemma takeWhile_nz_append (l r : List Nat) (h : 0 ∈ l) :
    (l ++ r).takeWhile (fun b => b != 0) =
      l.takeWhile (fun b => b != 0) := by
  induction l with
  | nil => simp at h
  | cons x xs ih =>
    by_cases hx : x = 0
    · subst hx
      simp [List.takeWhile_cons]
    · have hxs : 0 ∈ xs := by
        rcases List.mem_cons.mp h with h1 | h1
        · exact absurd h1.symm hx
        · exact h1
      have hb : (x != 0) = true := by simpa using hx
      simp [List.takeWhile_cons, hb, ih hxs]

lemma goString_append_of_mem (l r : List Nat) (h : 0 ∈ l) :
    goString (l ++ r) = goString l :=
  takeWhile_nz_append l r h

/-! ## Trace facts about the command dispatch -/

lemma dispatchExec_spec (o : DaemonOracle) (cmd : Command) :
    disconnectCount (dispatchExec o cmd).1 = 0 ∧
    endedNormally (dispatchExec o cmd).1 = (dispatchExec o cmd).2 := by
  rcases cmd with _ | arg | arg | arg | _ <;>
    try rcases arg with _ | _ | pid
  all_goals
    simp only [dispatchExec, cmdListExec, cmdStatusExec, cmdActivateExec,
      cmdDeactivateExec]
  all_goals repeat' split
  all_goals refine ⟨?_, ?_⟩ <;>
    simp [disconnectCount, endedNormally, List.count_cons, beq_iff_eq]

lemma disconnectCount_append (a b : List MainEvent) :
    disconnectCount (a ++ b) = disconnectCount a + disconnectCount b := by
  simp [disconnectCount, List.count_append]

lemma endedNormally_append (a b : List MainEvent) :
    endedNormally (a ++ b) = (endedNormally a && endedNormally b) := by
  simp [endedNormally, List.any_append]

/-! ## Claim theorems -/

/-- C1 (amended): FMConnect performs no length check on the address and never
fails locally.  For every address, every heap content and every native
behaviour it issues exactly one native connect call; when the encoded length
of the address (including the terminating null) exceeds the 256-byte buffer
capacity, the buffer sent to the native call holds exactly the first 256
address bytes - the address is silently truncated, with no terminator among
the copied bytes. -/
theorem fmConnect_truncates_silently :
    ∀ (native : fmConnectParams_v1 → Int × Option Nat) (junk : List Nat)
      (p : FMConnectParams),
    (FMConnect native junk p).2 = [buildConnectRequest junk p] ∧
    (FM_MAX_STR_LENGTH ≤ p.AddressInfo.length →
      (buildConnectRequest junk p).addressInfo =
        p.AddressInfo.take FM_MAX_STR_LENGTH) := by
  intro native junk p
  refine ⟨rfl, ?_⟩
  intro h
  show encodeAddressBuffer p.AddressInfo junk = _
  unfold encodeAddressBuffer
  have hassoc :
      (p.AddressInfo ++ [0] ++ junk) ++
          List.replicate FM_MAX_STR_LENGTH 0 =
        p.AddressInfo ++
          (([0] ++ junk) ++ List.replicate FM_MAX_STR_LENGTH 0) := by
    simp [List.append_assoc]
  rw [hassoc, List.take_append_of_le_length h]

/-- C1 counterexample: the claim says a connect request whose encoded address
exceeds the 256-byte capacity fails with AddressTooLong before any native
call is issued, with no partial write.  In the source no such check (and no
such error value) exists: with a 300-byte address the native call is issued
anyway, and its request is byte-for-byte identical to the request built for
the distinct address holding only the first 256 bytes - the silent
truncation the spec forbids. -/
theorem fmConnect_overlong_address_counterexample :
    pLong.AddressInfo ≠ pShort.AddressInfo ∧
    buildConnectRequest [] pLong = buildConnectRequest [] pShort ∧
    (FMConnect (fun _ => (FM_ST_SUCCESS, some 7)) [] pLong).2 =
      [buildConnectRequest [] pShort] := by
  set_option maxRecDepth 40000 in decide

/-- C1 witness: the amended theorem applied to the 300-byte address. -/
theorem fmConnect_truncates_silently_witness :
    (buildConnectRequest [] pLong).addressInfo =
      pLong.AddressInfo.take FM_MAX_STR_LENGTH :=
  (fmConnect_truncates_silently (fun _ => (FM_ST_SUCCESS, some 7)) []
    pLong).2 (by set_option maxRecDepth 4000 in decide)

/-- C2 (amended): over well-formed native memory (full 64-capacity partition
array, full 16-capacity GPU arrays), decoding produces exactly numPartitions
entries, each with exactly its declared GPU count, whenever the declared
counts are within the capacities; when a declared count exceeds its capacity
the decode aborts with a Go index-out-of-range panic (it does not read past
the array, but it also returns no error value). -/
theorem partitionList_decode_bounds :
    (∀ pl : fmFabricPartitionList_v2,
      pl.partitionInfo.length = FM_MAX_FABRIC_PARTITIONS →
      (∀ p ∈ pl.partitionInfo, p.gpuInfo.length = FM_MAX_NUM_GPUS) →
      ((pl.numPartitions ≤ FM_MAX_FABRIC_PARTITIONS →
          (∀ p ∈ pl.partitionInfo, p.numGpus ≤ FM_MAX_NUM_GPUS) →
          ∃ l, decodePartitionList pl = GoResult.ok l ∧
            l.length = pl.numPartitions ∧
            ∀ fi ∈ l, fi.GPUInfo.length = fi.NumGpus) ∧
        (FM_MAX_FABRIC_PARTITIONS < pl.numPartitions →
          decodePartitionList pl = GoResult.panic))) ∧
    (∀ p : fmFabricPartitionInfo_t,
      p.gpuInfo.length = FM_MAX_NUM_GPUS →
      ((p.numGpus ≤ FM_MAX_NUM_GPUS →
          ∃ fi, decodePartitionInfo p = GoResult.ok fi ∧
            fi.GPUInfo.length = p.numGpus) ∧
        (FM_MAX_NUM_GPUS < p.numGpus →
          decodePartitionInfo p = GoResult.panic))) := by
  constructor
  · intro pl hlen hg
    constructor
    · intro hn hgn
      obtain ⟨l, h1, h2, h3⟩ :=
        decodeLoop_ok pl.partitionInfo pl.numPartitions
          (by rw [hlen]; exact hn)
          (by
            intro p hp
            have hmem := List.mem_of_mem_take hp
            rw [hg p hmem]
            exact hgn p hmem)
      exact ⟨l, h1, h2, h3⟩
    · intro hn
      exact decodeLoop_panic pl.partitionInfo pl.numPartitions
        (by rw [hlen]; exact hn)
  · intro p hlen
    constructor
    · intro hn
      refine ⟨_, decodePartitionInfo_ok p (by rw [hlen]; exact hn), ?_⟩
      simp only [List.length_map, List.length_take]
      rw [hlen]
      exact Nat.min_eq_left hn
    · intro hn
      exact decodePartitionInfo_panic p (by rw [hlen]; exact hn)

/-- C2 counterexample: the claim says a declared count above the capacity
fails with ProtocolViolation.  The fmReturn_t enumeration has no such code
and the source applies no clamp: a response declaring 65 partitions makes
FMGetSupportedFabricPartitions abort with an index-out-of-range panic at
partitionInfo index 64 instead of returning any error value. -/
theorem partitionList_overcount_counterexample :
    FMGetSupportedFabricPartitions (fun _ _ => (FM_ST_SUCCESS, plOver)) 1 =
      GoResult.panic := by
  set_option maxRecDepth 8000 in decide

/-- C2 witness: the amended theorem applied to a response declaring two
partitions, and to an entry declaring 17 GPUs. -/
theorem partitionList_decode_bounds_witness :
    (∃ l, decodePartitionList plTwo = GoResult.ok l ∧ l.length = 2) ∧
    decodePartitionInfo partOverGpus = GoResult.panic := by
  constructor
  · obtain ⟨l, h1, h2, h3⟩ :=
      (partitionList_decode_bounds.1 plTwo (by decide) (by decide)).1
        (by decide) (by decide)
    exact ⟨l, h1, h2⟩
  · exact (partitionList_decode_bounds.2 partOverGpus (by decide)).2
      (by decide)

/-- C3 (amended): in the scope that obtained a handle from a successful
connect, the deferred disconnect runs exactly once on every exit path that
leaves main by a normal return; on every exit path that terminates the
process through os.Exit (failed native calls, missing or invalid command
arguments, unknown command, JSON marshal failure), deferred calls do not run
and the handle is released zero times.  No path releases it more than
once. -/
theorem disconnect_once_on_normal_exit :
    ∀ (o : DaemonOracle) (cmd : Command),
    o.connectRet = FM_ST_SUCCESS →
    (endedNormally (mainExec o cmd) = true →
      disconnectCount (mainExec o cmd) = 1) ∧
    (endedNormally (mainExec o cmd) = false →
      disconnectCount (mainExec o cmd) = 0) := by
  intro o cmd hc
  have hc2 : (o.connectRet != 0) = false := by
    rw [hc]
    decide
  obtain ⟨hd0, hde⟩ := dispatchExec_spec o cmd
  unfold mainExec
  rw [hc2]
  simp only [Bool.false_eq_true, if_false]
  cases hb : (dispatchExec o cmd).2 with
  | true =>
    rw [hb] at hde
    simp only [if_true]
    constructor
    · intro _
      rw [disconnectCount_append, hd0]
      decide
    · intro hcontra
      rw [endedNormally_append, hde] at hcontra
      exact absurd hcontra (by decide)
  | false =>
    rw [hb] at hde
    simp only [Bool.false_eq_true, if_false]
    constructor
    · intro hcontra
      rw [hde] at hcontra
      exact absurd hcontra (by decide)
    · intro _
      exact hd0

/-- C3 counterexample: the claim says disconnect is invoked exactly once on
every exit path of the owning scope, including error paths.  With a
successful connect and a list query failing with a timeout, cmdList calls
os.Exit(1); Go runs no deferred calls on os.Exit, so this exit path releases
the handle zero times. -/
theorem disconnect_skipped_counterexample :
    oracleListFails.connectRet = FM_ST_SUCCESS ∧
    mainExec oracleListFails Command.list =
      [MainEvent.nativeListCall, MainEvent.osExit 1] ∧
    disconnectCount (mainExec oracleListFails Command.list) = 0 := by
  decide

/-- C3 witness: the amended theorem applied to a run in which every call
succeeds. -/
theorem disconnect_once_witness :
    disconnectCount (mainExec oracleAllOk Command.list) = 1 :=
  (disconnect_once_on_normal_exit oracleAllOk Command.list (by decide)).1
    (by decide)

/-- C4 (amended): the version tag codec computes
(size | (version << 24)) mod 2^32; for sizes below 2^24 and versions up to
255 this packs losslessly as size + version * 2^24, and the connect request
version field is always populated with the macro value for
sizeof(fmConnectParams_v1) and version 1.  Versions above 255 are not
rejected: the shift is silently truncated by the unsigned int cast (see the
counterexample). -/
theorem version_tag_codec_behavior :
    (∀ s v : Nat, s < 2 ^ 24 → v ≤ 255 →
      MAKE_FM_PARAM_VERSION s v = s + v * 2 ^ 24) ∧
    fmConnectParams_version = sizeof_fmConnectParams_v1 + 1 * 2 ^ 24 ∧
    (∀ (junk : List Nat) (p : FMConnectParams),
      (buildConnectRequest junk p).version =
        MAKE_FM_PARAM_VERSION sizeof_fmConnectParams_v1 1) := by
  refine ⟨?_, by decide, fun _ _ => rfl⟩
  intro s v hs hv
  rw [make_version_eq_add s v hs hv]
  omega

/-- C4 counterexample: the claim says the codec fails fast for every version
above 255 rather than silently truncating the shift.  The macro is a total
arithmetic expression with no failure path: at version 256 the shifted bit
falls outside the unsigned int and the produced tag is identical to the tag
for version 0 - silent truncation, not rejection. -/
theorem version_tag_overflow_counterexample :
    MAKE_FM_PARAM_VERSION sizeof_fmConnectParams_v1 256 =
      MAKE_FM_PARAM_VERSION sizeof_fmConnectParams_v1 0 := by
  decide

/-- C4 witness: the amended theorem applied at the connect structure size and
version 1. -/
theorem version_tag_codec_witness :
    MAKE_FM_PARAM_VERSION 268 1 = 268 + 1 * 2 ^ 24 :=
  version_tag_codec_behavior.1 268 1 (by decide) (by decide)

/-- C5: when the native library conforms to its boundary contract (the
connect out-parameter is written only on success), every non-success return
of FMConnect yields the null handle: the Go out-parameter variable is
zero-initialized and returned unchanged, so the caller receives nothing to
disconnect. -/
theorem connect_failure_null_handle :
    ∀ (native : fmConnectParams_v1 → Int × Option Nat) (junk : List Nat)
      (p : FMConnectParams),
    (∀ q, (native q).1 ≠ FM_ST_SUCCESS → (native q).2 = none) →
    (FMConnect native junk p).1.2 ≠ FM_ST_SUCCESS →
    (FMConnect native junk p).1.1 = 0 := by
  intro native junk p hconf hfail
  have h2 := hconf (buildConnectRequest junk p) hfail
  show (native (buildConnectRequest junk p)).2.getD 0 = 0
  rw [h2]
  rfl

/-- C5 witness: the theorem applied to a native oracle that times out and
leaves the out-parameter untouched. -/
theorem connect_failure_null_handle_witness :
    (FMConnect nativeTimeoutOracle [] pEmptyAddr).1.1 = 0 :=
  connect_failure_null_handle nativeTimeoutOracle [] pEmptyAddr
    (fun _ _ => rfl) (by decide)

/-- C6: activate and deactivate each issue exactly one native call (the
trace is a single entry, so there is no implicit retry) and hand back the
returned code verbatim; in particular when the daemon returns FM_ST_IN_USE
the reported code is exactly FM_ST_IN_USE and its description is the string
In use. -/
theorem activate_single_call_verbatim :
    ∀ (native : Nat → Nat → Int) (fmHandle partitionID : Nat),
    (FMActivateFabricPartition native fmHandle partitionID).2 =
      [NativeCall.activateCall fmHandle partitionID] ∧
    (FMActivateFabricPartition native fmHandle partitionID).1 =
      native fmHandle partitionID ∧
    (FMDeactivateFabricPartition native fmHandle partitionID).2 =
      [NativeCall.deactivateCall fmHandle partitionID] ∧
    (FMDeactivateFabricPartition native fmHandle partitionID).1 =
      native fmHandle partitionID ∧
    (native fmHandle partitionID = FM_ST_IN_USE →
      (FMActivateFabricPartition native fmHandle partitionID).1 =
        FM_ST_IN_USE ∧
      FMReturnString
        (FMActivateFabricPartition native fmHandle partitionID).1 =
        "In use") := by
  intro native h pid
  refine ⟨rfl, rfl, rfl, rfl, fun hiu => ⟨hiu, ?_⟩⟩
  show FMReturnString (native h pid) = "In use"
  rw [hiu]
  decide

/-- C6 witness: the theorem applied to partition 7 against a daemon that
reports FM_ST_IN_USE. -/
theorem activate_single_call_witness :
    (FMActivateFabricPartition (fun _ _ => FM_ST_IN_USE) 1 7).1 =
      FM_ST_IN_USE ∧
    FMReturnString
      (FMActivateFabricPartition (fun _ _ => FM_ST_IN_USE) 1 7).1 =
      "In use" :=
  (activate_single_call_verbatim (fun _ _ => FM_ST_IN_USE) 1 7).2.2.2.2 rfl

/-- C7 (amended): for every struct size below 2^24 and version up to 255,
decoding the encoded tag recovers the original pair.  Sizes of 2^24 or more
overlap the version byte and break the roundtrip (see the counterexample),
so the bound on the size is necessary. -/
theorem version_tag_roundtrip :
    ∀ s v : Nat, s < 2 ^ 24 → v ≤ 255 →
    decode_version (MAKE_FM_PARAM_VERSION s v) = (s, v) := by
  intro s v hs hv
  rw [make_version_eq_add s v hs hv]
  have hm : (v * 2 ^ 24 + s) % 2 ^ 24 = s := by
    rw [Nat.mul_comm, Nat.mul_add_mod]
    exact Nat.mod_eq_of_lt hs
  have hd : (v * 2 ^ 24 + s) / 2 ^ 24 = v := by
    rw [Nat.add_comm,
      Nat.add_mul_div_right _ _ (by norm_num : (0 : Nat) < 2 ^ 24),
      Nat.div_eq_of_lt hs]
    omega
  unfold decode_version
  rw [Prod.mk.injEq]
  exact ⟨hm, hd⟩

/-- C7 counterexample: the claim quantifies over every struct size; at size
2^24 (with version 1) the size bit collides with the lowest version bit and
decoding returns (0, 1) instead of (2^24, 1). -/
theorem version_tag_roundtrip_counterexample :
    decode_version (MAKE_FM_PARAM_VERSION 16777216 1) ≠ (16777216, 1) := by
  decide

/-- C7 witness: the amended roundtrip at the connect structure size and
version 1. -/
theorem version_tag_roundtrip_witness :
    decode_version (MAKE_FM_PARAM_VERSION 268 1) = (268, 1) :=
  version_tag_roundtrip 268 1 (by decide) (by decide)

/-- C8 (amended): the bounded-string decode scans for the terminating null
and yields exactly the bytes before it when the buffer contains one; an
all-zero buffer (such as an absent GPU UUID) decodes to the empty string,
not an error and not an absent marker - the result type has no such marker.
The scan is not bounded by the buffer: when the buffer contains no null it
continues into the bytes of the following struct members (see the
counterexample). -/
theorem bounded_string_decode :
    ∀ g : fmFabricPartitionGpuInfo_t,
    (0 ∈ g.uuid →
      (decodeGpu g).UUID = g.uuid.takeWhile (fun b => b != 0)) ∧
    (g.uuid = List.replicate FM_UUID_BUFFER_SIZE 0 →
      (decodeGpu g).UUID = []) ∧
    (0 ∈ g.pciBusId →
      (decodeGpu g).PCIBusID = g.pciBusId.takeWhile (fun b => b != 0)) := by
  intro g
  have hA : 0 ∈ g.uuid →
      (decodeGpu g).UUID = g.uuid.takeWhile (fun b => b != 0) := by
    intro h
    show goString (g.uuid ++ g.pciBusId ++ gpuTrailingBytes g) = _
    rw [List.append_assoc, goString_append_of_mem g.uuid _ h]
    rfl
  refine ⟨hA, ?_, ?_⟩
  · intro h
    rw [hA (by rw [h]; simp [List.mem_replicate, FM_UUID_BUFFER_SIZE]), h]
    decide
  · intro h
    show goString (g.pciBusId ++ gpuTrailingBytes g) = _
    rw [goString_append_of_mem _ _ h]
    rfl

/-- C8 counterexample: the claim says the scan stops at the end of the
buffer when no null is present, producing a string of exactly the buffer
length.  C.GoString has no such bound: for a GPU entry whose 80-byte uuid
buffer holds no null, the decoded UUID continues into the adjacent pciBusId
bytes and has length 81. -/
theorem unbounded_scan_counterexample :
    (decodeGpu gpuNoNull).UUID =
      List.replicate FM_UUID_BUFFER_SIZE 65 ++ [66] ∧
    FM_UUID_BUFFER_SIZE < (decodeGpu gpuNoNull).UUID.length := by
  set_option maxRecDepth 4000 in decide

/-- C8 witness: the amended theorem applied to the all-zero GPU entry. -/
theorem bounded_string_decode_witness :
    (decodeGpu gpuZeroed).UUID = [] :=
  (bounded_string_decode gpuZeroed).2.1 rfl

/-- C9: the return code enumeration carries exactly the vendor ABI wire
values: success is 0, the ten error codes are the fixed negative values -1
through -10, every non-success code is negative, and no two codes share a
value (renumbering any of them would be observable). -/
theorem return_code_abi_values :
    fmReturnValue FMReturnCode.success = 0 ∧
    fmReturnValue FMReturnCode.badparam = -1 ∧
    fmReturnValue FMReturnCode.genericError = -2 ∧
    fmReturnValue FMReturnCode.notSupported = -3 ∧
    fmReturnValue FMReturnCode.uninitialized = -4 ∧
    fmReturnValue FMReturnCode.timeout = -5 ∧
    fmReturnValue FMReturnCode.versionMismatch = -6 ∧
    fmReturnValue FMReturnCode.inUse = -7 ∧
    fmReturnValue FMReturnCode.notConfigured = -8 ∧
    fmReturnValue FMReturnCode.connectionNotValid = -9 ∧
    fmReturnValue FMReturnCode.nvlinkError = -10 ∧
    (∀ c : FMReturnCode, c ≠ FMReturnCode.success → fmReturnValue c < 0) ∧
    (∀ c d : FMReturnCode, fmReturnValue c = fmReturnValue d → c = d) := by
  refine ⟨by decide, by decide, by decide, by decide, by decide, by decide,
    by decide, by decide, by decide, by decide, by decide, ?_, ?_⟩
  · intro c hc
    cases c <;> first | exact absurd rfl hc | decide
  · intro c d
    cases c <;> cases d <;> decide

/-- C9 witness: the negativity clause of the theorem applied to the in-use
code. -/
theorem return_code_abi_values_witness :
    fmReturnValue FMReturnCode.inUse < 0 :=
  return_code_abi_values.2.2.2.2.2.2.2.2.2.2.2.1 FMReturnCode.inUse
    (by decide)

/-- C10: FMConnect never reads the caller-supplied Version field: two inputs
differing only in that field produce the same native request and the same
result, for every native behaviour and heap content. -/
theorem connect_ignores_version_field :
    ∀ (native : fmConnectParams_v1 → Int × Option Nat) (junk : List Nat)
      (p : FMConnectParams) (v : Nat),
    buildConnectRequest junk { p with Version := v } =
      buildConnectRequest junk p ∧
    FMConnect native junk { p with Version := v } =
      FMConnect native junk p :=
  fun _ _ _ _ => ⟨rfl, rfl⟩
